import Mathlib

/-!
Verification development for the observations event-log server
(`observer-mcp.py`): an append-only NDJSON log with session bootstrapping,
thread allocation, typed event appends and a filtered query engine.

Shallow embedding conventions:
* A JSON value is `JVal`; a parsed log line is `Record` with the fields the
  program reads (`ev.get(...)` yielding `none` for a missing key).
* The log file is `Option (List Record)` (`none` = file does not exist);
  line-level serialization round-trips by construction (`json.dumps` writes
  one object per line and `json.loads` reads it back), so the store is
  modelled at the record level.
* `secrets.token_hex` / `uuid.uuid4().hex` are modelled by an injective hex
  rendering of a per-process fresh-draw counter held in the state; the
  source's truncation of the hex string is subsumed in the
  collision-resistance assumption the program itself makes.
* `datetime.datetime.utcnow()` is modelled by the state field `now`.
* `datetime.datetime.fromisoformat` is modelled on the grammar the program
  itself emits (`YYYY-MM-DDTHH:MM:SS`, field ranges validated), failing on
  every other shape; fallible Python code (KeyError / ValueError) becomes
  `Except String`.
-/

/-- A JSON value (shape of `json.loads` output / `json.dumps` input). -/
inductive JVal where
  | null
  | bool (b : Bool)
  | str (s : String)
  | num (n : Int)
  | arr (l : List JVal)
  | obj (l : List (String × JVal))

/-- One parsed log line, with the fields the program itself reads or writes.
`none` models a missing key (so `ev.get(k)` is field access and `ev[k]` is
field access that throws on `none`). -/
structure Record where
  id : Option String := none
  ts : Option String := none
  actor : Option String := none
  session_id : Option String := none
  activity_id : Option String := none
  thread_id : Option String := none
  kind : Option String := none
  tags : Option (List String) := none
  data : Option JVal := none
  confidence : Option JVal := none
  supersedes : Option String := none

/-- A naive (timezone-free) datetime, as produced by
`datetime.datetime.fromisoformat` on the strings this program handles. -/
structure DT where
  y : Nat
  mo : Nat
  d : Nat
  h : Nat
  mi : Nat
  s : Nat
deriving DecidableEq

/-- Encoding of a datetime as a single natural number; because every parsed
field is range-validated (each subfield below 100, fields compared
most-significant first) this order coincides with Python's lexicographic
datetime comparison. -/
def DT.key (t : DT) : Nat :=
  ((((t.y * 100 + t.mo) * 100 + t.d) * 100 + t.h) * 100 + t.mi) * 100 + t.s

/-- Decimal digit value of a character, `none` when not a digit. -/
def digitVal (c : Char) : Option Nat :=
  if '0' ≤ c ∧ c ≤ '9' then some (c.toNat - 48) else none

/-- Day count of a month (Gregorian), for `fromisoformat` range validation. -/
def daysInMonth (y mo : Nat) : Nat :=
  if mo = 2 then (if y % 4 = 0 ∧ (y % 100 ≠ 0 ∨ y % 400 = 0) then 29 else 28)
  else if mo = 4 ∨ mo = 6 ∨ mo = 9 ∨ mo = 11 then 30 else 31

/-- Model of `datetime.datetime.fromisoformat`, restricted to the
`YYYY-MM-DDTHH:MM:SS` shape this program reads and writes (`now_iso` emits
exactly this, plus the `Z` the callers strip first); any other input fails,
as the Python call raises `ValueError`. -/
def parseIso (str : String) : Option DT :=
  match str.data with
  | [y1, y2, y3, y4, q1, m1, m2, q2, d1, d2, sep, hh1, hh2, c1, mi1, mi2, c2, ss1, ss2] =>
    match digitVal y1, digitVal y2, digitVal y3, digitVal y4, digitVal m1, digitVal m2,
        digitVal d1, digitVal d2, digitVal hh1, digitVal hh2, digitVal mi1, digitVal mi2,
        digitVal ss1, digitVal ss2 with
    | some a1, some a2, some a3, some a4, some b1, some b2, some e1, some e2, some f1,
        some f2, some g1, some g2, some k1, some k2 =>
      if q1 = '-' ∧ q2 = '-' ∧ sep = 'T' ∧ c1 = ':' ∧ c2 = ':' then
        let yy := ((a1 * 10 + a2) * 10 + a3) * 10 + a4
        let mm := b1 * 10 + b2
        let dd := e1 * 10 + e2
        let hh := f1 * 10 + f2
        let mi := g1 * 10 + g2
        let ss := k1 * 10 + k2
        if 1 ≤ yy ∧ 1 ≤ mm ∧ mm ≤ 12 ∧ 1 ≤ dd ∧ dd ≤ daysInMonth yy mm ∧
            hh ≤ 23 ∧ mi ≤ 59 ∧ ss ≤ 59 then
          some ⟨yy, mm, dd, hh, mi, ss⟩
        else none
      else none
    | _, _, _, _, _, _, _, _, _, _, _, _, _, _ => none
  | _ => none

/-- Model of `s.replace("Z", "")`: removes every occurrence of `Z`. -/
def stripZ (s : String) : String :=
  String.mk (s.data.filter (fun c => c ≠ 'Z'))

/-- Reference strip following the spec's words for the query engine:
"trailing `Z` stripped before parsing" — removes one trailing `Z` only. -/
def stripTrailingZ (s : String) : String :=
  match s.data.getLast? with
  | some 'Z' => String.mk s.data.dropLast
  | _ => s

/-- Model of the inner `parse_ts` helper of `list_events` (parameterized by
the `Z`-stripping function): a falsy argument (absent or empty) gives no
bound; otherwise the string must parse or the call raises `ValueError`. -/
def parse_tsWith (strip : String → String) : Option String → Except String (Option DT)
  | none => .ok none
  | some s =>
    if s.isEmpty then .ok none
    else
      match parseIso (strip s) with
      | some t => .ok (some t)
      | none => .error "ValueError: invalid isoformat string"

/-- Model of `datetime.datetime.fromisoformat(ev["ts"].replace("Z", ""))`
applied to a scanned record: a missing `ts` key raises `KeyError`, an
unparseable value raises `ValueError`. -/
def evTsWith (strip : String → String) (ev : Record) : Except String DT :=
  match ev.ts with
  | none => .error "KeyError: ts"
  | some s =>
    match parseIso (strip s) with
    | some t => .ok t
    | none => .error "ValueError: invalid isoformat string"

/-- Model of `if f and ev.get(field) != f: continue`: `true` when the filter
argument is truthy (present and non-empty) and the field differs from it. -/
def skipNe (filt : Option String) (val : Option String) : Bool :=
  match filt with
  | none => false
  | some s => if s.isEmpty then false else decide (val ≠ some s)

/-- Model of `if kinds_set and ev.get("kind") not in kinds_set: continue`. -/
def skipKind (ks : List String) (k : Option String) : Bool :=
  if ks.isEmpty then false
  else
    match k with
    | none => true
    | some s => decide (s ∉ ks)

/-- Model of `ts_since and ts < ts_since` (naive datetime comparison). -/
def tsBefore (t : DT) (o : Option DT) : Bool :=
  match o with
  | none => false
  | some b => decide (t.key < b.key)

/-- Model of `ts_until and ts > ts_until` (naive datetime comparison). -/
def tsAfter (t : DT) (o : Option DT) : Bool :=
  match o with
  | none => false
  | some b => decide (b.key < t.key)

/-- The per-scan context of `list_events`: the filter arguments, the parsed
time bounds, the effective (clamped) limit, and the `Z`-strip function. -/
structure Query where
  session_id : Option String
  activity_id : Option String
  thread_id : Option String
  kinds_set : List String
  ts_since : Option DT
  ts_until : Option DT
  clampN : Nat
  strip : String → String

/-- The scan loop of `list_events`: each record is run through the filters
in source order (`continue` on a failed filter), the timestamp parse raises
out of the loop, and the loop breaks once `count` reaches the clamped
limit. `out` and `count` are the loop accumulators (`out`/`count` in the
source, with `count = len(out)` throughout). -/
def goQ (q : Query) : List Record → List Record → Nat → Except String (List Record)
  | [], out, _ => .ok out
  | ev :: rest, out, count =>
    if skipNe q.session_id ev.session_id then goQ q rest out count
    else if skipNe q.activity_id ev.activity_id then goQ q rest out count
    else if skipNe q.thread_id ev.thread_id then goQ q rest out count
    else if skipKind q.kinds_set ev.kind then goQ q rest out count
    else
      match evTsWith q.strip ev with
      | .error e => .error e
      | .ok t =>
        if tsBefore t q.ts_since then goQ q rest out count
        else if tsAfter t q.ts_until then goQ q rest out count
        else if q.clampN ≤ count + 1 then .ok (out ++ [ev])
        else goQ q rest (out ++ [ev]) (count + 1)

/-- The effective result bound of `list_events`: `max(1, min(limit, 2000))`
(as a natural number; it is always at least 1). -/
def effLimit (limit : Int) : Nat :=
  (max 1 (min limit 2000)).toNat

/-- Model of `_iter_events`: a missing log file yields the empty sequence,
otherwise the file's records in file order. -/
def scan : Option (List Record) → List Record
  | none => []
  | some l => l

/-- The body of `list_events`, parameterized by the `Z`-strip function used
in timestamp parsing (the source instantiates it with `replace("Z", "")`).
`since`/`until` are parsed up front (raising on a malformed value), then the
store is scanned through the filter loop. -/
def listEventsWith (strip : String → String) (session_id activity_id thread_id : Option String)
    (kinds : Option (List String)) (since until_ : Option String) (limit : Int)
    (file : Option (List Record)) : Except String (List Record) :=
  match parse_tsWith strip since with
  | .error e => .error e
  | .ok tsS =>
    match parse_tsWith strip until_ with
    | .error e => .error e
    | .ok tsU =>
      goQ ⟨session_id, activity_id, thread_id, kinds.getD [], tsS, tsU, effLimit limit, strip⟩
        (scan file) [] 0

/-- The `list_events` tool exactly as in the source: all `Z` characters are
removed before `fromisoformat` (`s.replace("Z", "")`). -/
def listEvents (session_id activity_id thread_id : Option String)
    (kinds : Option (List String)) (since until_ : Option String) (limit : Int)
    (file : Option (List Record)) : Except String (List Record) :=
  listEventsWith stripZ session_id activity_id thread_id kinds since until_ limit file

/-- Reference query engine following the spec's words: identical to
`listEvents` except that timestamps are parsed with only a trailing `Z`
stripped. -/
def listEventsSpecTZ (session_id activity_id thread_id : Option String)
    (kinds : Option (List String)) (since until_ : Option String) (limit : Int)
    (file : Option (List Record)) : Except String (List Record) :=
  listEventsWith stripTrailingZ session_id activity_id thread_id kinds since until_ limit file

/-- A record satisfies every supplied filter of a query: the three exact
matches, the kind-membership filter, and the inclusive time window (whose
evaluation requires the record's `ts` to parse). -/
def matchesFilters (q : Query) (ev : Record) : Bool :=
  !skipNe q.session_id ev.session_id && !skipNe q.activity_id ev.activity_id &&
  !skipNe q.thread_id ev.thread_id && !skipKind q.kinds_set ev.kind &&
  (match evTsWith q.strip ev with
   | .ok t => !tsBefore t q.ts_since && !tsAfter t q.ts_until
   | .error _ => false)

/-- Little-endian base-16 digit list of a natural number (no leading
zeros; `0` renders empty, which is irrelevant to uniqueness). -/
def hexRev (n : Nat) : List Nat :=
  if h : n = 0 then [] else (n % 16) :: hexRev (n / 16)
decreasing_by
  exact Nat.div_lt_self (Nat.pos_of_ne_zero h) (by norm_num)

/-- The character of one hex digit (lower case, as Python renders them). -/
def hexDigitChar (d : Nat) : Char :=
  if d < 10 then Char.ofNat (48 + d) else Char.ofNat (87 + d)

/-- Hex rendering of a natural number, most significant digit first. This
models one fresh draw from `secrets.token_hex` / `uuid.uuid4().hex`: the
n-th draw of the process renders the fresh-draw counter n, so distinct
draws give distinct strings (the collision-resistance the source assumes
of its random tokens). -/
def hexChars (n : Nat) : List Char :=
  (hexRev n).reverse.map hexDigitChar

/-- Model of `f"sess_{secrets.token_hex(4)}"` at fresh draw `n`. -/
def sessionIdOf (n : Nat) : String :=
  String.mk (['s', 'e', 's', 's', '_'] ++ hexChars n)

/-- Model of `f"evt_{uuid.uuid4().hex}"` at fresh draw `n`. -/
def evtIdOf (n : Nat) : String :=
  String.mk (['e', 'v', 't', '_'] ++ hexChars n)

/-- Model of `f"thr_{uuid.uuid4().hex[:8]}"` at fresh draw `n`. -/
def threadIdOf (n : Nat) : String :=
  String.mk (['t', 'h', 'r', '_'] ++ hexChars n)

/-- Python `dict` assignment `d[k] = v` on an insertion-ordered association
list: updates the entry in place when the key is present, else appends. -/
def pyInsert {α : Type} : List (String × α) → String → α → List (String × α)
  | [], k, v => [(k, v)]
  | (k0, v0) :: rest, k, v =>
    if k0 = k then (k, v) :: rest else (k0, v0) :: pyInsert rest k v

/-- Python `d.get(k)` / `k in d` on an association list. -/
def lookupS {α : Type} : List (String × α) → String → Option α
  | [], _ => none
  | (k0, v0) :: rest, k => if k0 = k then some v0 else lookupS rest k

/-- Python `a or b` on two optional strings (`None` and `""` are falsy). -/
def pyOrOpt (a b : Option String) : Option String :=
  match a with
  | none => b
  | some s => if s = "" then b else some s

/-- Session resolution `sid = session_id or _ACTIVE_SESSION_ID` followed by
the `if not sid` guard: `some sid` exactly when the resolved id is truthy. -/
def resolveSid (explicit : Option String) (active : Option String) : Option String :=
  match pyOrOpt explicit active with
  | none => none
  | some s => if s = "" then none else some s

/-- Python `a or d` for an optional string against a string default. -/
def pyOrStr (a : Option String) (d : String) : String :=
  match a with
  | none => d
  | some s => if s = "" then d else s

/-- The fixed fallback demo context of `_load_private_context`. -/
def fallbackCtx : List (String × JVal) :=
  [("user_id", .str "user_demo"), ("ourn", .str "sql_10min_intro"),
   ("cohort", .str "pilot")]

/-- Outcome of the private-context source (`CONTEXT_PATH`): the file may be
absent, unreadable, hold invalid JSON, or parse to an object. -/
inductive LoaderOutcome where
  | absent
  | unreadable
  | invalidJson
  | parsed (ctx : List (String × JVal))

/-- Model of `_load_private_context`: a parsed file is returned; an absent
file falls through, and any raised exception (read or JSON decode) is
swallowed — both give the fallback demo context. -/
def _load_private_context : LoaderOutcome → List (String × JVal)
  | .parsed ctx => ctx
  | .absent => fallbackCtx
  | .unreadable => fallbackCtx
  | .invalidJson => fallbackCtx

/-- The fixed set of valid event kinds (`KINDS` in the source). -/
def KINDS : List String :=
  ["submission", "verify", "feedback", "hint", "note", "reflection", "state", "metric"]

/-- `sorted(KINDS)`, as rendered into the invalid-kind error message. -/
def sortedKINDS : List String :=
  ["feedback", "hint", "metric", "note", "reflection", "state", "submission", "verify"]

/-- The structured error payloads the tools return (`{"error": ...}` in the
source, with the message naming the offending kind and the allowed set in
the invalid-kind case). -/
inductive ToolError where
  | noActiveSession
  | invalidKind (offending : String) (allowed : List String)
deriving DecidableEq

/-- The process state the tools share: the log file (`none` = not yet
created), the in-memory `_PRIVATE_CTX` table, `_ACTIVE_SESSION_ID`, the
fresh-draw counter modelling the random token sources, the (ghost) list of
fresh draws spent on thread ids, and the current `now_iso()` reading. -/
structure ObsState where
  file : Option (List Record)
  privateCtx : List (String × List (String × JVal))
  activeSession : Option String
  counter : Nat
  minted : List Nat
  now : String

/-- Model of `_append_line`: creates the file when absent and appends one
record at the end. -/
def _append_line (rec : Record) (file : Option (List Record)) : Option (List Record) :=
  some ((scan file) ++ [rec])

/-- The redacted session-start marker event `bootstrap_session` persists:
every field is fixed except the fresh session id, the fresh event id and
the timestamp — in particular it carries nothing from the private context. -/
def sessionStartRec (sid eid now : String) : Record :=
  { id := some eid, ts := some now, actor := some "system", session_id := some sid,
    activity_id := none, thread_id := none, kind := some "state",
    tags := some ["session_start"], data := some (.obj [("meta", .str "started")]),
    confidence := none, supersedes := none }

/-- The per-session stored context `{**private_ctx, "ts": now_iso()}`. -/
def storedCtxOf (o : LoaderOutcome) (now : String) : List (String × JVal) :=
  pyInsert (_load_private_context o) "ts" (.str now)

/-- The `bootstrap_session` tool: loads the private context, mints a fresh
session id, stores the context extended with a timestamp, makes the session
active, appends the redacted session-start marker, and returns the payload
built from `{"session_id": sid}` by echoing each `expose`d field present in
the stored context. -/
def bootstrap_session (expose : Option (List String)) (o : LoaderOutcome)
    (s : ObsState) : List (String × JVal) × ObsState :=
  let session_id := sessionIdOf s.counter
  let stored := storedCtxOf o s.now
  let ev := sessionStartRec session_id (evtIdOf (s.counter + 1)) s.now
  let payload := (expose.getD []).foldl
    (fun p k => match lookupS stored k with | some v => pyInsert p k v | none => p)
    [("session_id", .str session_id)]
  (payload,
   { s with file := _append_line ev s.file,
            privateCtx := pyInsert s.privateCtx session_id stored,
            activeSession := some session_id,
            counter := s.counter + 2 })

/-- The full thread-start event `start_thread` persists and returns: a
`state` event tagged `thread_start` whose payload wraps the caller's
metadata (defaulted to the empty object). -/
def threadStartRec (sid aid tid eid now : String) (md : List (String × JVal)) : Record :=
  { id := some eid, ts := some now, actor := some "system", session_id := some sid,
    activity_id := some aid, thread_id := some tid, kind := some "state",
    tags := some ["thread_start"], data := some (.obj [("metadata", .obj md)]),
    confidence := none, supersedes := none }

/-- The `start_thread` tool: resolves the session (error when none), mints
a fresh thread id, appends the thread-start event and returns the resolved
session id, the thread id and the persisted event. -/
def start_thread (activity_id : String) (session_id : Option String)
    (metadata : Option (List (String × JVal))) (s : ObsState) :
    Except ToolError (String × String × Record) × ObsState :=
  match resolveSid session_id s.activeSession with
  | none => (.error .noActiveSession, s)
  | some sid =>
    let thread_id := threadIdOf s.counter
    let ev := threadStartRec sid activity_id thread_id (evtIdOf (s.counter + 1)) s.now
      (metadata.getD [])
    (.ok (sid, thread_id, ev),
     { s with file := _append_line ev s.file,
              counter := s.counter + 2,
              minted := s.minted ++ [s.counter] })

/-- The `append_event` tool: resolves the session (error when none), then
rejects a kind outside `KINDS` before any write, else builds the event with
a fresh id, the current timestamp, the defaulted actor and tags, and
appends it. -/
def append_event (activity_id thread_id kind : String) (data : JVal)
    (tags : Option (List String)) (actor : Option String) (confidence : Option JVal)
    (supersedes : Option String) (session_id : Option String) (s : ObsState) :
    Except ToolError Record × ObsState :=
  match resolveSid session_id s.activeSession with
  | none => (.error .noActiveSession, s)
  | some sid =>
    if kind ∉ KINDS then (.error (.invalidKind kind sortedKINDS), s)
    else
      let ev : Record :=
        { id := some (evtIdOf s.counter), ts := some s.now,
          actor := some (pyOrStr actor "llm"), session_id := some sid,
          activity_id := some activity_id, thread_id := some thread_id,
          kind := some kind, tags := some (tags.getD []), data := some data,
          confidence := confidence, supersedes := supersedes }
      (.ok ev, { s with file := _append_line ev s.file, counter := s.counter + 1 })


/-- A sample well-formed record for concrete evaluations. -/
def goodRec : Record :=
  { kind := some "note", ts := some "2021-01-01T00:00:00Z" }

/-- A second sample well-formed record. -/
def goodRec2 : Record :=
  { kind := some "note", ts := some "2021-01-02T00:00:00Z" }

/-- A sample record with no `ts` field at all. -/
def badTsRec : Record :=
  { kind := some "note" }

/-- A sample record used for the `Z`-stripping comparison. -/
def zSinceRec : Record :=
  { kind := some "note", ts := some "2021-05-05T10:00:00Z" }

/-- A fresh process state: no log file, no sessions, counter at zero. -/
def demoState : ObsState :=
  { file := none, privateCtx := [], activeSession := none, counter := 0,
    minted := [], now := "2024-01-01T00:00:00Z" }

/-! Freshness of generated identifiers: the hex rendering of the fresh-draw
counter is injective, so draws at distinct counter values give distinct id
strings. -/

theorem hexRev_zero : hexRev 0 = [] := by
  rw [hexRev]
  simp

theorem hexRev_ne_zero (n : Nat) (h : n ≠ 0) : hexRev n = (n % 16) :: hexRev (n / 16) := by
  rw [hexRev, dif_neg h]

theorem hexRev_mem_lt : ∀ n : Nat, ∀ d ∈ hexRev n, d < 16 := by
  intro n
  induction n using Nat.strong_induction_on with
  | _ n ih =>
    intro d hd
    by_cases h : n = 0
    · rw [h, hexRev_zero] at hd
      simp at hd
    · rw [hexRev_ne_zero n h] at hd
      rcases List.mem_cons.mp hd with h1 | h1
      · subst h1; exact Nat.mod_lt _ (by norm_num)
      · exact ih (n / 16) (Nat.div_lt_self (Nat.pos_of_ne_zero h) (by norm_num)) d h1

theorem hexRev_inj : ∀ m n : Nat, hexRev m = hexRev n → m = n := by
  intro m
  induction m using Nat.strong_induction_on with
  | _ m ih =>
    intro n h
    by_cases hm : m = 0 <;> by_cases hn : n = 0
    · omega
    · rw [hm, hexRev_zero, hexRev_ne_zero n hn] at h
      exact absurd h.symm (List.cons_ne_nil _ _)
    · rw [hn, hexRev_zero, hexRev_ne_zero m hm] at h
      exact absurd h (List.cons_ne_nil _ _)
    · rw [hexRev_ne_zero m hm, hexRev_ne_zero n hn] at h
      injection h with h1 h2
      have := ih (m / 16) (Nat.div_lt_self (Nat.pos_of_ne_zero hm) (by norm_num)) (n / 16) h2
      omega

theorem hexDigitChar_inj16 : ∀ a < 16, ∀ b < 16, hexDigitChar a = hexDigitChar b → a = b := by
  decide

theorem map_hexDigitChar_inj :
    ∀ l1 l2 : List Nat, (∀ d ∈ l1, d < 16) → (∀ d ∈ l2, d < 16) →
    l1.map hexDigitChar = l2.map hexDigitChar → l1 = l2 := by
  intro l1
  induction l1 with
  | nil =>
    intro l2 _ _ h
    cases l2 with
    | nil => rfl
    | cons b t2 => simp at h
  | cons a t ih =>
    intro l2 h1 h2 h
    cases l2 with
    | nil => simp at h
    | cons b t2 =>
      simp only [List.map_cons, List.cons.injEq] at h
      obtain ⟨hh, ht⟩ := h
      have := hexDigitChar_inj16 a (h1 a (by simp)) b (h2 b (by simp)) hh
      subst this
      rw [ih t2 (fun d hd => h1 d (by simp [hd])) (fun d hd => h2 d (by simp [hd])) ht]

theorem hexChars_inj : ∀ m n : Nat, hexChars m = hexChars n → m = n := by
  intro m n h
  unfold hexChars at h
  have h1 := map_hexDigitChar_inj _ _
    (fun d hd => hexRev_mem_lt m d (List.mem_reverse.mp hd))
    (fun d hd => hexRev_mem_lt n d (List.mem_reverse.mp hd)) h
  exact hexRev_inj m n (List.reverse_injective h1)

theorem threadIdOf_inj : ∀ m n : Nat, threadIdOf m = threadIdOf n → m = n := by
  intro m n h
  simp only [threadIdOf] at h
  injection h with h'
  simp only [List.cons_append, List.nil_append, List.cons.injEq, true_and] at h'
  exact hexChars_inj m n h'

theorem strMk_cons_ne_empty (c : Char) (l : List Char) : String.mk (c :: l) ≠ "" := by
  intro h
  have h' : (String.mk (c :: l)).data = ("" : String).data := congrArg String.data h
  exact List.noConfusion h'

theorem sessionIdOf_ne_empty (n : Nat) : sessionIdOf n ≠ "" := by
  show String.mk ('s' :: (['e', 's', 's', '_'] ++ hexChars n)) ≠ ""
  exact strMk_cons_ne_empty _ _

/-! Association-list (Python dict) lemmas. -/

theorem lookupS_pyInsert {α : Type} (l : List (String × α)) (k k' : String) (v : α) :
    lookupS (pyInsert l k v) k' = if k = k' then some v else lookupS l k' := by
  induction l with
  | nil => by_cases hk : k = k' <;> simp [pyInsert, lookupS, hk]
  | cons p rest ih =>
    obtain ⟨k0, v0⟩ := p
    by_cases h : k0 = k
    · subst h
      by_cases hk : k0 = k' <;> simp [pyInsert, lookupS, hk]
    · by_cases h0 : k0 = k'
      · subst h0
        simp [pyInsert, lookupS, h, show ¬(k = k0) from fun hh => h hh.symm]
      · simp [pyInsert, lookupS, h, h0, ih]

theorem lookupS_exposeFold (stored : List (String × JVal)) :
    ∀ (expose : List String) (p : List (String × JVal)) (k' : String),
    lookupS (expose.foldl
      (fun p k => match lookupS stored k with | some v => pyInsert p k v | none => p) p) k' =
    if k' ∈ expose ∧ (lookupS stored k').isSome then lookupS stored k' else lookupS p k' := by
  intro expose
  induction expose with
  | nil => intro p k'; simp
  | cons k rest ih =>
    intro p k'
    rw [List.foldl_cons, ih]
    by_cases hmem : k' ∈ rest ∧ (lookupS stored k').isSome
    · rw [if_pos hmem, if_pos ⟨List.mem_cons_of_mem _ hmem.1, hmem.2⟩]
    · rw [if_neg hmem]
      cases hsk : lookupS stored k with
      | some v =>
        rw [lookupS_pyInsert]
        by_cases hkk : k = k'
        · subst hkk
          simp [hsk]
        · have : ¬(k' ∈ k :: rest ∧ (lookupS stored k').isSome) := by
            intro hc
            rcases List.mem_cons.mp hc.1 with h1 | h1
            · exact hkk h1.symm
            · exact hmem ⟨h1, hc.2⟩
          rw [if_neg hkk, if_neg this]
      | none =>
        by_cases hkk : k' = k
        · subst hkk
          simp [hsk]
        · have : ¬(k' ∈ k :: rest ∧ (lookupS stored k').isSome) := by
            intro hc
            rcases List.mem_cons.mp hc.1 with h1 | h1
            · exact hkk h1
            · exact hmem ⟨h1, hc.2⟩
          rw [if_neg this]

/-! Limit clamping lemmas. -/

theorem effLimit_pos (limit : Int) : 0 < effLimit limit := by
  unfold effLimit
  have h1 : (1 : Int) ≤ max 1 (min limit 2000) := le_max_left _ _
  have h2 := Int.toNat_le_toNat h1
  norm_num at h2
  omega

theorem effLimit_eq_min_max (limit : Int) : effLimit limit = (min (max limit 1) 2000).toNat := by
  unfold effLimit
  rw [max_min_distrib_left, max_comm (1 : Int) limit]
  norm_num

/-! The scan loop of `list_events`: a successful scan is exactly
filter-then-truncate over the store in file order; once the result has
filled the clamped limit the scan has stopped, so extending the log does
not change it; and a record with a missing or unparseable `ts` that passes
the identity and kind filters raises when it is reached. -/

theorem goQ_ok_eq (q : Query) (l : List Record) :
    ∀ (out res : List Record) (count : Nat), count < q.clampN →
    goQ q l out count = .ok res →
    res = out ++ (l.filter (matchesFilters q)).take (q.clampN - count) := by
  induction l with
  | nil =>
    intro out res count _ h
    simp only [goQ] at h
    injection h with h'
    subst h'
    simp
  | cons ev rest ih =>
    intro out res count hc h
    simp only [goQ] at h
    by_cases h1 : skipNe q.session_id ev.session_id = true
    · rw [if_pos h1] at h
      rw [List.filter_cons_of_neg (by simp [matchesFilters, h1])]
      exact ih out res count hc h
    · rw [if_neg h1] at h
      rw [Bool.not_eq_true] at h1
      by_cases h2 : skipNe q.activity_id ev.activity_id = true
      · rw [if_pos h2] at h
        rw [List.filter_cons_of_neg (by simp [matchesFilters, h2])]
        exact ih out res count hc h
      · rw [if_neg h2] at h
        rw [Bool.not_eq_true] at h2
        by_cases h3 : skipNe q.thread_id ev.thread_id = true
        · rw [if_pos h3] at h
          rw [List.filter_cons_of_neg (by simp [matchesFilters, h3])]
          exact ih out res count hc h
        · rw [if_neg h3] at h
          rw [Bool.not_eq_true] at h3
          by_cases h4 : skipKind q.kinds_set ev.kind = true
          · rw [if_pos h4] at h
            rw [List.filter_cons_of_neg (by simp [matchesFilters, h4])]
            exact ih out res count hc h
          · rw [if_neg h4] at h
            rw [Bool.not_eq_true] at h4
            cases hts : evTsWith q.strip ev with
            | error e =>
              rw [hts] at h
              simp only [] at h
              exact Except.noConfusion h
            | ok t =>
              rw [hts] at h
              simp only [] at h
              by_cases h5 : tsBefore t q.ts_since = true
              · rw [if_pos h5] at h
                rw [List.filter_cons_of_neg (by simp [matchesFilters, hts, h5])]
                exact ih out res count hc h
              · rw [if_neg h5] at h
                rw [Bool.not_eq_true] at h5
                by_cases h6 : tsAfter t q.ts_until = true
                · rw [if_pos h6] at h
                  rw [List.filter_cons_of_neg (by simp [matchesFilters, hts, h6])]
                  exact ih out res count hc h
                · rw [if_neg h6] at h
                  rw [Bool.not_eq_true] at h6
                  have hm : matchesFilters q ev = true := by
                    simp [matchesFilters, h1, h2, h3, h4, hts, h5, h6]
                  rw [List.filter_cons_of_pos hm]
                  by_cases h7 : q.clampN ≤ count + 1
                  · rw [if_pos h7] at h
                    injection h with h'
                    subst h'
                    have hcc : q.clampN - count = 1 := by omega
                    rw [hcc]
                    simp
                  · rw [if_neg h7] at h
                    have hc1 : count + 1 < q.clampN := by omega
                    rw [ih (out ++ [ev]) res (count + 1) hc1 h]
                    have hcc : q.clampN - count = (q.clampN - (count + 1)) + 1 := by omega
                    rw [hcc, List.take_succ_cons]
                    simp

theorem goQ_frozen (q : Query) (l : List Record) :
    ∀ (out res : List Record) (count : Nat), count = out.length → count < q.clampN →
    goQ q l out count = .ok res → res.length = q.clampN →
    ∀ extra, goQ q (l ++ extra) out count = .ok res := by
  induction l with
  | nil =>
    intro out res count hcount hc h hlen _
    simp only [goQ] at h
    injection h with h'
    subst h'
    omega
  | cons ev rest ih =>
    intro out res count hcount hc h hlen extra
    simp only [goQ] at h
    simp only [List.cons_append, goQ]
    by_cases h1 : skipNe q.session_id ev.session_id = true
    · rw [if_pos h1] at h ⊢
      exact ih out res count hcount hc h hlen extra
    · rw [if_neg h1] at h ⊢
      by_cases h2 : skipNe q.activity_id ev.activity_id = true
      · rw [if_pos h2] at h ⊢
        exact ih out res count hcount hc h hlen extra
      · rw [if_neg h2] at h ⊢
        by_cases h3 : skipNe q.thread_id ev.thread_id = true
        · rw [if_pos h3] at h ⊢
          exact ih out res count hcount hc h hlen extra
        · rw [if_neg h3] at h ⊢
          by_cases h4 : skipKind q.kinds_set ev.kind = true
          · rw [if_pos h4] at h ⊢
            exact ih out res count hcount hc h hlen extra
          · rw [if_neg h4] at h ⊢
            cases hts : evTsWith q.strip ev with
            | error e =>
              rw [hts] at h
              simp only [] at h
              exact Except.noConfusion h
            | ok t =>
              rw [hts] at h
              simp only [] at h ⊢
              by_cases h5 : tsBefore t q.ts_since = true
              · rw [if_pos h5] at h ⊢
                exact ih out res count hcount hc h hlen extra
              · rw [if_neg h5] at h ⊢
                by_cases h6 : tsAfter t q.ts_until = true
                · rw [if_pos h6] at h ⊢
                  exact ih out res count hcount hc h hlen extra
                · rw [if_neg h6] at h ⊢
                  by_cases h7 : q.clampN ≤ count + 1
                  · rw [if_pos h7] at h ⊢
                    exact h
                  · rw [if_neg h7] at h ⊢
                    exact ih (out ++ [ev]) res (count + 1) (by simp [hcount]) (by omega)
                      h hlen extra

theorem goQ_bad_after (q : Query) (bad : Record) (e : String)
    (hb1 : skipNe q.session_id bad.session_id = false)
    (hb2 : skipNe q.activity_id bad.activity_id = false)
    (hb3 : skipNe q.thread_id bad.thread_id = false)
    (hb4 : skipKind q.kinds_set bad.kind = false)
    (hts : evTsWith q.strip bad = .error e) (post : List Record) (l : List Record) :
    ∀ (out res : List Record) (count : Nat), count = out.length → count < q.clampN →
    goQ q l out count = .ok res → res.length < q.clampN →
    goQ q (l ++ bad :: post) out count = .error e := by
  induction l with
  | nil =>
    intro out res count _ _ h _
    simp only [goQ] at h
    injection h with h'
    subst h'
    simp [goQ, hb1, hb2, hb3, hb4, hts]
  | cons ev rest ih =>
    intro out res count hcount hc h hlen
    simp only [goQ] at h
    simp only [List.cons_append, goQ]
    by_cases h1 : skipNe q.session_id ev.session_id = true
    · rw [if_pos h1] at h ⊢
      exact ih out res count hcount hc h hlen
    · rw [if_neg h1] at h ⊢
      by_cases h2 : skipNe q.activity_id ev.activity_id = true
      · rw [if_pos h2] at h ⊢
        exact ih out res count hcount hc h hlen
      · rw [if_neg h2] at h ⊢
        by_cases h3 : skipNe q.thread_id ev.thread_id = true
        · rw [if_pos h3] at h ⊢
          exact ih out res count hcount hc h hlen
        · rw [if_neg h3] at h ⊢
          by_cases h4 : skipKind q.kinds_set ev.kind = true
          · rw [if_pos h4] at h ⊢
            exact ih out res count hcount hc h hlen
          · rw [if_neg h4] at h ⊢
            cases hts2 : evTsWith q.strip ev with
            | error e2 =>
              rw [hts2] at h
              simp only [] at h
              exact Except.noConfusion h
            | ok t =>
              rw [hts2] at h
              simp only [] at h ⊢
              by_cases h5 : tsBefore t q.ts_since = true
              · rw [if_pos h5] at h ⊢
                exact ih out res count hcount hc h hlen
              · rw [if_neg h5] at h ⊢
                by_cases h6 : tsAfter t q.ts_until = true
                · rw [if_pos h6] at h ⊢
                  exact ih out res count hcount hc h hlen
                · rw [if_neg h6] at h ⊢
                  by_cases h7 : q.clampN ≤ count + 1
                  · rw [if_pos h7] at h
                    injection h with h'
                    subst h'
                    simp at hlen
                    omega
                  · rw [if_neg h7] at h ⊢
                    exact ih (out ++ [ev]) res (count + 1) (by simp [hcount]) (by omega)
                      h hlen

theorem listEvents_eq_goQ (session_id activity_id thread_id : Option String)
    (kinds : Option (List String)) (since until_ : Option String) (limit : Int)
    (file : Option (List Record)) (tsS tsU : Option DT)
    (hs : parse_tsWith stripZ since = .ok tsS) (hu : parse_tsWith stripZ until_ = .ok tsU) :
    listEvents session_id activity_id thread_id kinds since until_ limit file =
      goQ ⟨session_id, activity_id, thread_id, kinds.getD [], tsS, tsU, effLimit limit, stripZ⟩
        (scan file) [] 0 := by
  unfold listEvents listEventsWith
  rw [hs, hu]

theorem listEvents_ok_parses (session_id activity_id thread_id : Option String)
    (kinds : Option (List String)) (since until_ : Option String) (limit : Int)
    (file : Option (List Record)) (out : List Record)
    (h : listEvents session_id activity_id thread_id kinds since until_ limit file = .ok out) :
    ∃ tsS tsU, parse_tsWith stripZ since = .ok tsS ∧ parse_tsWith stripZ until_ = .ok tsU := by
  unfold listEvents listEventsWith at h
  cases hs : parse_tsWith stripZ since with
  | error e => rw [hs] at h; exact Except.noConfusion h
  | ok tsS =>
    rw [hs] at h
    cases hu : parse_tsWith stripZ until_ with
    | error e => rw [hu] at h; exact Except.noConfusion h
    | ok tsU => exact ⟨tsS, tsU, rfl, rfl⟩

/-! Claim theorems. -/

/-- C1: for every call to `append_event` whose `kind` argument is outside
the fixed set `KINDS` (with a session resolvable), the log file is left
unchanged (the state, and in particular the file, is returned as is) and
the call returns an error result naming the offending kind value and the
allowed (sorted) set. -/
theorem append_event_invalid_kind_rejected (activity_id thread_id kind : String)
    (data : JVal) (tags : Option (List String)) (actor : Option String)
    (confidence : Option JVal) (supersedes : Option String) (session_id : Option String)
    (s : ObsState) (hres : ∃ sid, resolveSid session_id s.activeSession = some sid)
    (hk : kind ∉ KINDS) :
    append_event activity_id thread_id kind data tags actor confidence supersedes
      session_id s = (.error (.invalidKind kind sortedKINDS), s) := by
  obtain ⟨sid, hsid⟩ := hres
  unfold append_event
  rw [hsid]
  simp only []
  rw [if_pos hk]

/-- Witness for C1 at a concrete input: kind `bogus` with an explicit
session id, on a fresh state. -/
theorem append_event_invalid_kind_rejected_witness :
    append_event "act1" "thr1" "bogus" .null none none none none (some "sess_a") demoState =
      (.error (.invalidKind "bogus" sortedKINDS), demoState) :=
  append_event_invalid_kind_rejected "act1" "thr1" "bogus" .null none none none none
    (some "sess_a") demoState ⟨"sess_a", rfl⟩ (by decide)

/-- C4: a call to `append_event` or `start_thread` with no explicit
`session_id` while no session is active returns the structured
no-active-session error payload, and the state (hence the log file) is
unchanged. -/
theorem no_active_session_rejected (activity_id thread_id kind : String) (data : JVal)
    (tags : Option (List String)) (actor : Option String) (confidence : Option JVal)
    (supersedes : Option String) (metadata : Option (List (String × JVal)))
    (s : ObsState) (ha : s.activeSession = none) :
    append_event activity_id thread_id kind data tags actor confidence supersedes none s =
      (.error .noActiveSession, s) ∧
    start_thread activity_id none metadata s = (.error .noActiveSession, s) := by
  constructor
  · unfold append_event
    rw [ha]
    rfl
  · unfold start_thread
    rw [ha]
    rfl

/-- Witness for C4 at a concrete input: both tools on a fresh state with no
active session. -/
theorem no_active_session_rejected_witness :
    append_event "act1" "thr1" "note" .null none none none none none demoState =
      (.error .noActiveSession, demoState) ∧
    start_thread "act1" none none demoState = (.error .noActiveSession, demoState) :=
  no_active_session_rejected "act1" "thr1" "note" .null none none none none none
    demoState rfl

/-- C6: for every failing outcome of the private-context loader (file
absent, unreadable, or invalid JSON), the loader error is swallowed and the
fixed fallback demo context is used, so `bootstrap_session` behaves exactly
as if the fallback context had been loaded — it never fails for this
reason. -/
theorem private_context_fallback (o : LoaderOutcome)
    (ho : o = .absent ∨ o = .unreadable ∨ o = .invalidJson) :
    _load_private_context o = fallbackCtx ∧
    ∀ (expose : Option (List String)) (s : ObsState),
      bootstrap_session expose o s = bootstrap_session expose (.parsed fallbackCtx) s := by
  rcases ho with h | h | h <;> subst h <;> exact ⟨rfl, fun _ _ => rfl⟩

/-- Witness for C6 at a concrete input: the absent-file outcome on a fresh
state, with a concrete expose list. -/
theorem private_context_fallback_witness :
    _load_private_context .absent = fallbackCtx ∧
    bootstrap_session (some ["cohort"]) .absent demoState =
      bootstrap_session (some ["cohort"]) (.parsed fallbackCtx) demoState :=
  ⟨(private_context_fallback .absent (Or.inl rfl)).1,
   (private_context_fallback .absent (Or.inl rfl)).2 (some ["cohort"]) demoState⟩

/-- C3 counterexample: the code removes every `Z` from `since`/`until`
before parsing, not only a trailing one. On `since =
"2020-01-01TZ00:00:00"` (an embedded `Z`, no trailing `Z`) the actual
query engine parses the bound and returns the matching event, while the
engine described by the claim (only a trailing `Z` stripped) fails the
parse and raises. -/
theorem list_events_since_all_z_cex :
    listEvents none none none none (some "2020-01-01TZ00:00:00") none 200 (some [zSinceRec]) =
      .ok [zSinceRec] ∧
    listEventsSpecTZ none none none none (some "2020-01-01TZ00:00:00") none 200
      (some [zSinceRec]) = .error "ValueError: invalid isoformat string" :=
  ⟨rfl, rfl⟩

/-- C3 (amended): whenever `list_events` returns a result, that result is
exactly the records of the store, in original file order, that satisfy
every supplied filter (exact matches, kind membership, and the inclusive
time window with `since`/`until` parsed after removing all `Z` characters,
compared naively), truncated to the effective limit. -/
theorem list_events_filter_take (session_id activity_id thread_id : Option String)
    (kinds : Option (List String)) (since until_ : Option String) (limit : Int)
    (file : Option (List Record)) (tsS tsU : Option DT) (out : List Record)
    (hs : parse_tsWith stripZ since = .ok tsS) (hu : parse_tsWith stripZ until_ = .ok tsU)
    (h : listEvents session_id activity_id thread_id kinds since until_ limit file = .ok out) :
    out = ((scan file).filter (matchesFilters
        ⟨session_id, activity_id, thread_id, kinds.getD [], tsS, tsU, effLimit limit,
          stripZ⟩)).take (effLimit limit) := by
  rw [listEvents_eq_goQ session_id activity_id thread_id kinds since until_ limit file
    tsS tsU hs hu] at h
  have hgo := goQ_ok_eq ⟨session_id, activity_id, thread_id, kinds.getD [], tsS, tsU,
    effLimit limit, stripZ⟩ (scan file) [] out 0 (effLimit_pos limit) h
  simpa using hgo

/-- Witness for C3 (amended) at a concrete input: one matching record, no
filters, limit 200. -/
theorem list_events_filter_take_witness :
    ([goodRec] : List Record) = ((scan (some [goodRec])).filter (matchesFilters
        ⟨none, none, none, ([] : List String), none, none, effLimit 200, stripZ⟩)).take
      (effLimit 200) :=
  list_events_filter_take none none none none none none 200 (some [goodRec]) none none
    [goodRec] rfl rfl rfl

/-- C5: whenever `list_events` returns a result, it holds at most
`min(max(limit, 1), 2000)` events, and once the result has filled that
bound the scan has stopped early: extending the log does not change the
result. -/
theorem list_events_limit_clamped (session_id activity_id thread_id : Option String)
    (kinds : Option (List String)) (since until_ : Option String) (limit : Int)
    (l : List Record) (out : List Record)
    (h : listEvents session_id activity_id thread_id kinds since until_ limit (some l) =
      .ok out) :
    out.length ≤ (min (max limit 1) 2000).toNat ∧
    (out.length = (min (max limit 1) 2000).toNat →
      ∀ extra, listEvents session_id activity_id thread_id kinds since until_ limit
        (some (l ++ extra)) = .ok out) := by
  obtain ⟨tsS, tsU, hs, hu⟩ := listEvents_ok_parses _ _ _ _ _ _ _ _ _ h
  rw [listEvents_eq_goQ session_id activity_id thread_id kinds since until_ limit (some l)
    tsS tsU hs hu] at h
  have hpos := effLimit_pos limit
  constructor
  · have hgo := goQ_ok_eq ⟨session_id, activity_id, thread_id, kinds.getD [], tsS, tsU,
      effLimit limit, stripZ⟩ (scan (some l)) [] out 0 hpos h
    rw [← effLimit_eq_min_max, hgo]
    simp only [List.nil_append]
    exact le_trans (List.length_take_le _ _) (by omega)
  · intro hl extra
    rw [← effLimit_eq_min_max] at hl
    rw [listEvents_eq_goQ session_id activity_id thread_id kinds since until_ limit
      (some (l ++ extra)) tsS tsU hs hu]
    exact goQ_frozen ⟨session_id, activity_id, thread_id, kinds.getD [], tsS, tsU,
      effLimit limit, stripZ⟩ l [] out 0 rfl hpos h hl extra

/-- Witness for C5 at a concrete input: `limit = 0` on a two-record log
returns one event (the clamped bound is 1). -/
theorem list_events_limit_clamped_witness :
    ([goodRec] : List Record).length ≤ (min (max (0 : Int) 1) 2000).toNat :=
  (list_events_limit_clamped none none none none none none 0 [goodRec, goodRec2]
    [goodRec] rfl).1

/-- C8 counterexample: on an absent log file, `list_events` does not return
an empty result for every combination of filters — a malformed `since`
filter raises before the store is consulted, so the call fails instead of
yielding the empty sequence. -/
theorem list_events_absent_file_bad_since_cex :
    listEvents none none none none (some "garbage") none 200 none =
      .error "ValueError: invalid isoformat string" :=
  rfl

/-- C8 (amended): when the log file does not exist, scanning the store
yields the empty sequence rather than failing, and `list_events` with any
identity/kind filters and any parseable-or-absent `since`/`until` returns
the empty list (a malformed `since`/`until` raises regardless of the
file). -/
theorem list_events_absent_file_empty (session_id activity_id thread_id : Option String)
    (kinds : Option (List String)) (since until_ : Option String) (limit : Int)
    (tsS tsU : Option DT)
    (hs : parse_tsWith stripZ since = .ok tsS) (hu : parse_tsWith stripZ until_ = .ok tsU) :
    scan none = ([] : List Record) ∧
    listEvents session_id activity_id thread_id kinds since until_ limit none = .ok [] := by
  refine ⟨rfl, ?_⟩
  rw [listEvents_eq_goQ session_id activity_id thread_id kinds since until_ limit none
    tsS tsU hs hu]
  rfl

/-- Witness for C8 (amended) at a concrete input: a parseable `since` on an
absent file. -/
theorem list_events_absent_file_empty_witness :
    scan none = ([] : List Record) ∧
    listEvents none none none none (some "2024-01-01T00:00:00Z") none 200 none = .ok [] :=
  list_events_absent_file_empty none none none none (some "2024-01-01T00:00:00Z") none 200
    (some ⟨2024, 1, 1, 0, 0, 0⟩) none rfl rfl

/-- C10 counterexample: a record with a missing `ts` that passes every
identity and kind filter does not always make `list_events` raise — when
the result fills the effective limit before that record is reached, the
scan breaks first and the call returns normally (`limit = 1`, bad record
second). -/
theorem list_events_bad_ts_after_limit_cex :
    listEvents none none none none none none 1 (some [goodRec, badTsRec]) = .ok [goodRec] ∧
    badTsRec.ts = none ∧
    skipNe none badTsRec.session_id = false ∧ skipNe none badTsRec.activity_id = false ∧
    skipNe none badTsRec.thread_id = false ∧ skipKind [] badTsRec.kind = false :=
  ⟨rfl, rfl, rfl, rfl, rfl, rfl⟩

/-- C10 (amended): `list_events` parses the `ts` of every scanned record
unconditionally (even with no time window supplied), so a record with a
missing or unparseable `ts` that passes the identity and kind filters makes
the call raise, provided it is reached before the result fills the
effective limit. -/
theorem list_events_bad_ts_raises (session_id activity_id thread_id : Option String)
    (kinds : Option (List String)) (since until_ : Option String) (limit : Int)
    (pre post : List Record) (bad : Record) (res : List Record) (e : String)
    (h : listEvents session_id activity_id thread_id kinds since until_ limit (some pre) =
      .ok res)
    (hlen : res.length < effLimit limit)
    (hb1 : skipNe session_id bad.session_id = false)
    (hb2 : skipNe activity_id bad.activity_id = false)
    (hb3 : skipNe thread_id bad.thread_id = false)
    (hb4 : skipKind (kinds.getD []) bad.kind = false)
    (hts : evTsWith stripZ bad = .error e) :
    listEvents session_id activity_id thread_id kinds since until_ limit
      (some (pre ++ bad :: post)) = .error e := by
  obtain ⟨tsS, tsU, hs, hu⟩ := listEvents_ok_parses _ _ _ _ _ _ _ _ _ h
  rw [listEvents_eq_goQ session_id activity_id thread_id kinds since until_ limit (some pre)
    tsS tsU hs hu] at h
  rw [listEvents_eq_goQ session_id activity_id thread_id kinds since until_ limit
    (some (pre ++ bad :: post)) tsS tsU hs hu]
  exact goQ_bad_after ⟨session_id, activity_id, thread_id, kinds.getD [], tsS, tsU,
    effLimit limit, stripZ⟩ bad e hb1 hb2 hb3 hb4 hts post pre [] res 0 rfl
    (effLimit_pos limit) h hlen

/-- Witness for C10 (amended) at a concrete input: the missing-`ts` record
is reached (limit 5, one matching record before it) and the call raises
the `KeyError`. -/
theorem list_events_bad_ts_raises_witness :
    listEvents none none none none none none 5 (some ([goodRec] ++ badTsRec :: [])) =
      .error "KeyError: ts" :=
  list_events_bad_ts_raises none none none none none none 5 [goodRec] [] badTsRec
    [goodRec] "KeyError: ts" rfl (by decide) rfl rfl rfl rfl rfl

/-- C2 counterexample: the expose allowlist is checked against the stored
session context, which is the private context extended with a `ts` field
added at bootstrap — not against the private context itself. Exposing
`"ts"` on the fallback context (which has no `ts` field) still returns a
`ts` entry next to the session id, so the result is not "exactly the new
session_id plus fields present in the private context". -/
theorem bootstrap_expose_ts_cex :
    lookupS (bootstrap_session (some ["ts"]) .absent demoState).1 "ts" =
      some (.str "2024-01-01T00:00:00Z") ∧
    lookupS fallbackCtx "ts" = none :=
  ⟨rfl, rfl⟩

/-- C2 (amended): `bootstrap_session` returns the mapping that starts from
the fresh session id and echoes, for each field named in `expose`, its
value in the stored context (the private context extended with a bootstrap
timestamp under `"ts"`) when present there; every other key is absent, and
a `"session_id"` entry of the stored context named in `expose` overrides
the fresh id. The persisted session-start line is the fixed redacted
marker (payload `{"meta": "started"}`, tags `["session_start"]`), and does
not depend on the private context at all. -/
theorem bootstrap_session_exposed_payload (expose : Option (List String))
    (o : LoaderOutcome) (s : ObsState) (k : String) :
    lookupS (bootstrap_session expose o s).1 k =
      (if k ∈ expose.getD [] ∧ (lookupS (storedCtxOf o s.now) k).isSome
       then lookupS (storedCtxOf o s.now) k
       else if k = "session_id" then some (.str (sessionIdOf s.counter)) else none) ∧
    (bootstrap_session expose o s).2.file =
      some ((scan s.file) ++
        [sessionStartRec (sessionIdOf s.counter) (evtIdOf (s.counter + 1)) s.now]) ∧
    ∀ o' : LoaderOutcome,
      (bootstrap_session expose o' s).2.file = (bootstrap_session expose o s).2.file := by
  refine ⟨?_, rfl, fun o' => rfl⟩
  show lookupS ((expose.getD []).foldl
      (fun p k => match lookupS (storedCtxOf o s.now) k with
        | some v => pyInsert p k v | none => p)
      [("session_id", .str (sessionIdOf s.counter))]) k = _
  rw [lookupS_exposeFold (storedCtxOf o s.now) (expose.getD [])]
  by_cases hc : k ∈ expose.getD [] ∧ (lookupS (storedCtxOf o s.now) k).isSome
  · rw [if_pos hc, if_pos hc]
  · rw [if_neg hc, if_neg hc]
    by_cases hk : k = "session_id"
    · subst hk
      simp [lookupS]
    · rw [if_neg hk]
      simp only [lookupS]
      rw [if_neg (fun h : "session_id" = k => hk h.symm)]

/-- C7: after a `bootstrap_session`, a `start_thread` with no explicit
session id returns the session id minted by that bootstrap, a fresh thread
id distinct from every previously minted thread id, and the full persisted
thread-start event (a `state` event tagged `thread_start`, carrying the
caller metadata defaulted to empty); the event it returns is exactly the
one appended to the log. -/
theorem start_thread_after_bootstrap (expose : Option (List String)) (o : LoaderOutcome)
    (s0 : ObsState) (activity_id : String) (metadata : Option (List (String × JVal)))
    (hmint : ∀ j ∈ s0.minted, j < s0.counter) :
    (start_thread activity_id none metadata (bootstrap_session expose o s0).2).1 =
      .ok (sessionIdOf s0.counter, threadIdOf (s0.counter + 2),
        threadStartRec (sessionIdOf s0.counter) activity_id (threadIdOf (s0.counter + 2))
          (evtIdOf (s0.counter + 3)) s0.now (metadata.getD [])) ∧
    (start_thread activity_id none metadata (bootstrap_session expose o s0).2).2.file =
      some ((scan (bootstrap_session expose o s0).2.file) ++
        [threadStartRec (sessionIdOf s0.counter) activity_id (threadIdOf (s0.counter + 2))
          (evtIdOf (s0.counter + 3)) s0.now (metadata.getD [])]) ∧
    ∀ j ∈ (bootstrap_session expose o s0).2.minted,
      threadIdOf j ≠ threadIdOf (s0.counter + 2) := by
  have hact : (bootstrap_session expose o s0).2.activeSession =
      some (sessionIdOf s0.counter) := rfl
  have hres : resolveSid none (bootstrap_session expose o s0).2.activeSession =
      some (sessionIdOf s0.counter) := by
    rw [hact]
    simp only [resolveSid, pyOrOpt]
    rw [if_neg (sessionIdOf_ne_empty s0.counter)]
  refine ⟨?_, ?_, ?_⟩
  · unfold start_thread
    rw [hres]
    simp only []
    rfl
  · unfold start_thread
    rw [hres]
    simp only []
    rfl
  · intro j hj heq
    have hj' : j ∈ s0.minted := hj
    have := threadIdOf_inj j (s0.counter + 2) heq
    have := hmint j hj'
    omega

/-- Witness for C7 at a concrete input: bootstrap on a fresh state, then
`start_thread "act1"` with no explicit session id. -/
theorem start_thread_after_bootstrap_witness :
    (start_thread "act1" none none (bootstrap_session none .absent demoState).2).1 =
      .ok (sessionIdOf 0, threadIdOf 2,
        threadStartRec (sessionIdOf 0) "act1" (threadIdOf 2) (evtIdOf 3)
          "2024-01-01T00:00:00Z" []) :=
  (start_thread_after_bootstrap none .absent demoState "act1" none (by decide)).1
